import Mathlib

/-!
Verification of the blog views module (src/blog/views.py) of the djas
repository: the three request handlers post_list, post_detail and
post_create are embedded as pure functions over an explicit post store,
and the specification's testable properties are proved about them.

The BlogPost model and the BlogPostForm form class are declared in the
repository but their files are not part of the given source; their
behaviour is modelled from the specification, as marked on each
definition below.
-/

namespace Djas

/-- Modelled from the spec: the raw submitted data carried by a request
(Django request.POST).  The spec only says the form converts raw
submitted data into a validated post or a set of field errors; the post
fields beyond identifier and creation time are external, so we model
the submitted data as a title and a content string. -/
structure RawData where
  title : String
  content : String
deriving DecidableEq

/-- Modelled from the spec: the Blog Post entity, with an identifier
(unique, assigned at creation), a creation timestamp, and the content
fields coming from the form data (title and content, matching RawData). -/
structure BlogPost where
  pk : Nat
  created_at : Nat
  title : String
  content : String
deriving DecidableEq

/-- The post store backing BlogPost.objects: the list of persisted posts
together with the next identifier to assign and a clock supplying
creation timestamps.  Modelled from the spec: identifiers are unique and
assigned at creation; the creation timestamp is assigned by the store. -/
structure Store where
  posts : List BlogPost
  nextPk : Nat
  clock : Nat
deriving DecidableEq

/-- A store with no posts. -/
def emptyStore : Store := { posts := [], nextPk := 1, clock := 0 }

/-- Modelled from the spec: the field-level error annotations produced by
the external form component for a given submission; a required field that
is empty yields an error, following the form framework's default for
required fields. -/
def fieldErrors (d : RawData) : List String :=
  (if d.title = "" then ["title: This field is required."] else []) ++
  (if d.content = "" then ["content: This field is required."] else [])

/-- Modelled from the spec: the BlogPostForm form class, declared in the
repository's forms module (not part of the given source).  A form is
either unbound (constructed with no data, the display path) or bound to
the submitted data (constructed from request.POST, the submit path). -/
inductive BlogPostForm where
  | unbound : BlogPostForm
  | bound : RawData → BlogPostForm
deriving DecidableEq

/-- Modelled from the spec: form.is_valid() holds exactly when the bound
data produces no field errors; an unbound form is never valid. -/
def BlogPostForm.is_valid : BlogPostForm → Bool
  | .unbound => false
  | .bound d => (fieldErrors d).isEmpty

/-- Modelled from the spec: the validation errors carried by the form. -/
def BlogPostForm.errors : BlogPostForm → List String
  | .unbound => []
  | .bound d => fieldErrors d

/-- Modelled from the spec: persisting a new post (form.save()).  The
store assigns the identifier and the creation timestamp at creation and
appends the new post; the next identifier and the clock advance. -/
def Store.save (s : Store) (d : RawData) : BlogPost × Store :=
  let p : BlogPost :=
    { pk := s.nextPk, created_at := s.clock, title := d.title, content := d.content }
  (p, { posts := s.posts ++ [p], nextPk := s.nextPk + 1, clock := s.clock + 1 })

/-- The HTTP method of an incoming request. -/
inductive Method where
  | GET | POST | HEAD | PUT | DELETE | PATCH | OPTIONS
deriving DecidableEq

/-- An incoming request: its method and its submitted data
(request.POST). -/
structure Request where
  method : Method
  postData : RawData
deriving DecidableEq

/-- The descending-creation-time order used by
BlogPost.objects.order_by("-created_at"). -/
def createdDesc (a b : BlogPost) : Prop := b.created_at ≤ a.created_at

instance : DecidableRel createdDesc := fun a b => Nat.decLe b.created_at a.created_at

instance : IsTotal BlogPost createdDesc :=
  ⟨fun a b => Nat.le_total b.created_at a.created_at⟩

instance : IsTrans BlogPost createdDesc :=
  ⟨fun _ _ _ hab hbc => Nat.le_trans hbc hab⟩

/-- BlogPost.objects.order_by("-created_at"): the persisted posts sorted
by creation time, descending. -/
def orderByCreatedDesc (l : List BlogPost) : List BlogPost :=
  l.insertionSort createdDesc

/-- The responses the three handlers can produce: the three rendered
templates with their contexts, the not-found response, and the redirect
to a detail page. -/
inductive Response where
  | renderIndex : List BlogPost → Response
  | renderDetail : BlogPost → Response
  | renderCreate : BlogPostForm → Response
  | notFound : Response
  | redirectDetail : Nat → Response
deriving DecidableEq

/-- get_object_or_404(BlogPost, pk=pk): the post with the given
identifier, or none when no post matches. -/
def get_object_or_404 (s : Store) (pk : Nat) : Option BlogPost :=
  s.posts.find? (fun p => p.pk == pk)

/-- def post_list(request): render the index template with all posts
ordered by creation time, descending. -/
def post_list (_req : Request) (s : Store) : Response × Store :=
  (Response.renderIndex (orderByCreatedDesc s.posts), s)

/-- def post_detail(request, pk): render the detail template with the
matching post, or produce the not-found response. -/
def post_detail (_req : Request) (pk : Nat) (s : Store) : Response × Store :=
  match get_object_or_404 s pk with
  | some post => (Response.renderDetail post, s)
  | none => (Response.notFound, s)

/-- def post_create(request): on a POST request bind the form to the
submitted data; if it validates, save the post and redirect to its
detail page, otherwise fall through to re-render the bound form; on any
other method construct an unbound form and render it. -/
def post_create (req : Request) (s : Store) : Response × Store :=
  if req.method = Method.POST then
    let form := BlogPostForm.bound req.postData
    if form.is_valid then
      let saved := s.save req.postData
      (Response.redirectDetail saved.1.pk, saved.2)
    else
      (Response.renderCreate form, s)
  else
    (Response.renderCreate BlogPostForm.unbound, s)

/-- One invocation of one of the three handlers. -/
inductive Handler where
  | list : Request → Handler
  | detail : Request → Nat → Handler
  | create : Request → Handler
deriving DecidableEq

/-- Dispatch a handler invocation against a store. -/
def runHandler : Handler → Store → Response × Store
  | .list req, s => post_list req s
  | .detail req pk, s => post_detail req pk s
  | .create req, s => post_create req s

/-- The store resulting from a sequence of handler invocations. -/
def runAll (hs : List Handler) (s : Store) : Store :=
  hs.foldl (fun s h => (runHandler h s).2) s

/-- The store invariant: every persisted identifier is below the next
identifier to assign, and no two posts share an identifier. -/
def Store.WF (s : Store) : Prop :=
  (∀ p ∈ s.posts, p.pk < s.nextPk) ∧ (s.posts.map BlogPost.pk).Nodup

instance (s : Store) : Decidable s.WF := by
  unfold Store.WF; infer_instance

end Djas

namespace Djas

/-! ### Helper lemmas -/

/-- In a list of posts with pairwise distinct identifiers, find? on an
identifier of a member returns that member. -/
theorem find_pk_of_nodup (p : BlogPost) :
    ∀ l : List BlogPost, (l.map BlogPost.pk).Nodup → p ∈ l →
      l.find? (fun q => q.pk == p.pk) = some p := by
  intro l
  induction l with
  | nil => intro _ hp; cases hp
  | cons a l ih =>
    intro hnd hp
    rw [List.map_cons, List.nodup_cons] at hnd
    rcases List.mem_cons.mp hp with rfl | hmem
    · simp [List.find?]
    · have hne : ¬ (a.pk == p.pk) = true := by
        intro hb
        exact hnd.1 (by
          rw [List.mem_map]
          exact ⟨p, hmem, (eq_of_beq hb).symm⟩)
      simp only [List.find?, hne]
      exact ih hnd.2 hmem

/-- If find? yields no post with the given identifier, no member of the
list has that identifier. -/
theorem find_none_not_mem (l : List BlogPost) (pk : Nat)
    (h : l.find? (fun q => q.pk == pk) = none) :
    ∀ p ∈ l, p.pk ≠ pk := by
  intro p hp heq
  have := List.find?_eq_none.mp h p hp
  simp [heq] at this

/-- Saving preserves the store invariant. -/
theorem save_WF (s : Store) (d : RawData) (h : s.WF) : (s.save d).2.WF := by
  obtain ⟨hlt, hnd⟩ := h
  constructor
  · intro p hp
    rcases List.mem_append.mp hp with hm | hm
    · exact Nat.lt_succ_of_lt (hlt p hm)
    · rcases List.mem_singleton.mp hm with rfl
      exact Nat.lt_succ_self _
  · rw [Store.save]
    simp only [List.map_append, List.map_cons, List.map_nil]
    rw [List.nodup_append]
    refine ⟨hnd, List.nodup_singleton _, ?_⟩
    intro x hx hx1
    rcases List.mem_singleton.mp hx1 with rfl
    rcases List.mem_map.mp hx with ⟨p, hp, hpk⟩
    exact Nat.lt_irrefl _ (hpk ▸ hlt p hp)

/-- Each handler invocation preserves the store invariant. -/
theorem runHandler_WF (h : Handler) (s : Store) (hwf : s.WF) :
    (runHandler h s).2.WF := by
  cases h with
  | list req => exact hwf
  | detail req pk =>
    rw [runHandler, post_detail]
    cases get_object_or_404 s pk <;> exact hwf
  | create req =>
    rw [runHandler, post_create]
    by_cases hm : req.method = Method.POST
    · rw [if_pos hm]
      by_cases hv : (BlogPostForm.bound req.postData).is_valid
      · rw [if_pos hv]; exact save_WF s req.postData hwf
      · rw [if_neg hv]; exact hwf
    · rw [if_neg hm]; exact hwf

/-- Any sequence of handler invocations preserves the store invariant. -/
theorem runAll_WF (hs : List Handler) (s : Store) (hwf : s.WF) :
    (runAll hs s).WF := by
  induction hs generalizing s with
  | nil => exact hwf
  | cons h hs ih => exact ih _ (runHandler_WF h s hwf)

/-! ### The claims -/

/-- C1: a POST request to the create endpoint whose submitted data
passes form validation persists exactly one new post (the store's post
list is the old list with the single saved post appended) and responds
with a redirect to the detail page of that post (the redirect identifier
equals the saved post's identifier). -/
theorem post_create_valid_spec (req : Request) (s : Store)
    (hm : req.method = Method.POST)
    (hv : (BlogPostForm.bound req.postData).is_valid = true) :
    (post_create req s).2.posts = s.posts ++ [(s.save req.postData).1] ∧
    (post_create req s).1 = Response.redirectDetail (s.save req.postData).1.pk := by
  rw [post_create, if_pos hm, if_pos hv]
  exact ⟨rfl, rfl⟩

/-- Witness for C1 at a concrete valid submission against the empty
store. -/
theorem post_create_valid_spec_witness :
    (Request.mk Method.POST (RawData.mk "a" "b")).method = Method.POST ∧
    (BlogPostForm.bound (Request.mk Method.POST (RawData.mk "a" "b")).postData).is_valid
      = true ∧
    ((post_create (Request.mk Method.POST (RawData.mk "a" "b")) emptyStore).2.posts =
        emptyStore.posts ++ [(emptyStore.save (RawData.mk "a" "b")).1] ∧
      (post_create (Request.mk Method.POST (RawData.mk "a" "b")) emptyStore).1 =
        Response.redirectDetail (emptyStore.save (RawData.mk "a" "b")).1.pk) :=
  ⟨rfl, rfl, post_create_valid_spec _ emptyStore rfl rfl⟩

/-- C2: for every store state, the listing handler renders exactly the
full set of persisted posts (a permutation of the store's posts: no
filtering, no pagination) sorted by creation timestamp, descending. -/
theorem post_list_spec (req : Request) (s : Store) :
    (post_list req s).1 = Response.renderIndex (orderByCreatedDesc s.posts) ∧
    (orderByCreatedDesc s.posts).Perm s.posts ∧
    List.Sorted createdDesc (orderByCreatedDesc s.posts) :=
  ⟨rfl, List.perm_insertionSort createdDesc s.posts,
    List.sorted_insertionSort createdDesc s.posts⟩

/-- C3: an identifier matching no post makes the detail handler yield
the not-found response, and this is the only error condition: the
not-found response arises from no handler other than the detail handler
on an unmatched identifier. -/
theorem post_detail_not_found_spec :
    (∀ (req : Request) (pk : Nat) (s : Store), get_object_or_404 s pk = none →
      (post_detail req pk s).1 = Response.notFound) ∧
    (∀ (h : Handler) (s : Store), (runHandler h s).1 = Response.notFound →
      ∃ (req : Request) (pk : Nat),
        h = Handler.detail req pk ∧ get_object_or_404 s pk = none) := by
  constructor
  · intro req pk s hnone
    rw [post_detail, hnone]
  · intro h s hresp
    cases h with
    | list req => exact absurd hresp (by rw [runHandler, post_list]; intro hc; cases hc)
    | detail req pk =>
      refine ⟨req, pk, rfl, ?_⟩
      rw [runHandler, post_detail] at hresp
      cases hfind : get_object_or_404 s pk with
      | none => rfl
      | some p => rw [hfind] at hresp; cases hresp
    | create req =>
      exfalso
      rw [runHandler, post_create] at hresp
      by_cases hm : req.method = Method.POST
      · rw [if_pos hm] at hresp
        by_cases hv : (BlogPostForm.bound req.postData).is_valid
        · rw [if_pos hv] at hresp; cases hresp
        · rw [if_neg hv] at hresp; cases hresp
      · rw [if_neg hm] at hresp; cases hresp

/-- Witness for C3: against the empty store, identifier 5 matches no
post and the detail handler yields the not-found response. -/
theorem post_detail_not_found_spec_witness :
    (post_detail (Request.mk Method.GET (RawData.mk "" "")) 5 emptyStore).1 =
      Response.notFound :=
  post_detail_not_found_spec.1 (Request.mk Method.GET (RawData.mk "" "")) 5 emptyStore rfl

/-- C4: a POST request to the create endpoint whose submitted data fails
form validation leaves the store unchanged and re-renders the same bound
form, which carries at least one validation error. -/
theorem post_create_invalid_spec (req : Request) (s : Store)
    (hm : req.method = Method.POST)
    (hv : (BlogPostForm.bound req.postData).is_valid = false) :
    (post_create req s).2 = s ∧
    (post_create req s).1 = Response.renderCreate (BlogPostForm.bound req.postData) ∧
    (BlogPostForm.bound req.postData).errors ≠ [] := by
  rw [post_create, if_pos hm, if_neg (by rw [hv]; exact Bool.false_ne_true)]
  refine ⟨rfl, rfl, ?_⟩
  intro hnil
  rw [BlogPostForm.is_valid] at hv
  rw [BlogPostForm.errors] at hnil
  rw [hnil] at hv
  cases hv

/-- Witness for C4 at a concrete invalid submission (empty title)
against the empty store. -/
theorem post_create_invalid_spec_witness :
    (Request.mk Method.POST (RawData.mk "" "b")).method = Method.POST ∧
    (BlogPostForm.bound (Request.mk Method.POST (RawData.mk "" "b")).postData).is_valid
      = false ∧
    ((post_create (Request.mk Method.POST (RawData.mk "" "b")) emptyStore).2 = emptyStore ∧
      (post_create (Request.mk Method.POST (RawData.mk "" "b")) emptyStore).1 =
        Response.renderCreate (BlogPostForm.bound (RawData.mk "" "b")) ∧
      (BlogPostForm.bound (RawData.mk "" "b")).errors ≠ []) :=
  ⟨rfl, rfl, post_create_invalid_spec _ emptyStore rfl rfl⟩

/-- C5: when the store's identifiers are pairwise distinct, the detail
handler on the identifier of a post present in the store renders exactly
that post, leaving the store unchanged. -/
theorem post_detail_found_spec (req : Request) (p : BlogPost) (s : Store)
    (hnd : (s.posts.map BlogPost.pk).Nodup) (hp : p ∈ s.posts) :
    (post_detail req p.pk s).1 = Response.renderDetail p ∧
    (post_detail req p.pk s).2 = s := by
  have hfind : get_object_or_404 s p.pk = some p :=
    find_pk_of_nodup p s.posts hnd hp
  rw [post_detail, hfind]
  exact ⟨rfl, rfl⟩

/-- Witness for C5: a store holding one concrete post, looked up by its
identifier. -/
theorem post_detail_found_spec_witness :
    (((Store.mk [BlogPost.mk 1 0 "a" "b"] 2 1).posts.map BlogPost.pk).Nodup ∧
      BlogPost.mk 1 0 "a" "b" ∈ (Store.mk [BlogPost.mk 1 0 "a" "b"] 2 1).posts) ∧
    ((post_detail (Request.mk Method.GET (RawData.mk "" ""))
        (BlogPost.mk 1 0 "a" "b").pk (Store.mk [BlogPost.mk 1 0 "a" "b"] 2 1)).1 =
      Response.renderDetail (BlogPost.mk 1 0 "a" "b") ∧
     (post_detail (Request.mk Method.GET (RawData.mk "" ""))
        (BlogPost.mk 1 0 "a" "b").pk (Store.mk [BlogPost.mk 1 0 "a" "b"] 2 1)).2 =
      Store.mk [BlogPost.mk 1 0 "a" "b"] 2 1) :=
  ⟨⟨by decide, by decide⟩,
    post_detail_found_spec _ _ _ (by decide) (by decide)⟩

/-- C6: submitting the same valid data twice in succession appends two
posts to the store, and the two posts carry distinct identifiers: no
deduplication, no idempotency on double-submission. -/
theorem post_create_twice_spec (req : Request) (s : Store)
    (hm : req.method = Method.POST)
    (hv : (BlogPostForm.bound req.postData).is_valid = true) :
    ∃ p1 p2 : BlogPost,
      (post_create req (post_create req s).2).2.posts = s.posts ++ [p1, p2] ∧
      p1.pk ≠ p2.pk := by
  have h1 : (post_create req s).2 = (s.save req.postData).2 := by
    rw [post_create, if_pos hm, if_pos hv]
  refine ⟨(s.save req.postData).1, ((s.save req.postData).2.save req.postData).1, ?_, ?_⟩
  · rw [h1, post_create, if_pos hm, if_pos hv]
    show ((s.save req.postData).2.save req.postData).2.posts = _
    simp [Store.save, List.append_assoc]
  · show s.nextPk ≠ s.nextPk + 1
    exact Nat.ne_of_lt (Nat.lt_succ_self _)

/-- Witness for C6 at a concrete valid submission against the empty
store. -/
theorem post_create_twice_spec_witness :
    (Request.mk Method.POST (RawData.mk "a" "b")).method = Method.POST ∧
    (BlogPostForm.bound (Request.mk Method.POST (RawData.mk "a" "b")).postData).is_valid
      = true ∧
    (∃ p1 p2 : BlogPost,
      (post_create (Request.mk Method.POST (RawData.mk "a" "b"))
          (post_create (Request.mk Method.POST (RawData.mk "a" "b")) emptyStore).2).2.posts =
        emptyStore.posts ++ [p1, p2] ∧
      p1.pk ≠ p2.pk) :=
  ⟨rfl, rfl, post_create_twice_spec _ emptyStore rfl rfl⟩

/-- C7: the listing and detail handlers return the store unchanged, and
no handler removes or modifies an existing post: after any handler
invocation the resulting post list is the old list with some (possibly
empty) suffix of new posts appended. -/
theorem handlers_frame_spec :
    (∀ (req : Request) (s : Store), (post_list req s).2 = s) ∧
    (∀ (req : Request) (pk : Nat) (s : Store), (post_detail req pk s).2 = s) ∧
    (∀ (h : Handler) (s : Store),
      ∃ t : List BlogPost, (runHandler h s).2.posts = s.posts ++ t) := by
  refine ⟨fun req s => rfl, ?_, ?_⟩
  · intro req pk s
    rw [post_detail]
    cases get_object_or_404 s pk <;> rfl
  · intro h s
    cases h with
    | list req => exact ⟨[], (List.append_nil s.posts).symm⟩
    | detail req pk =>
      refine ⟨[], ?_⟩
      rw [runHandler, post_detail]
      cases get_object_or_404 s pk <;> exact (List.append_nil s.posts).symm
    | create req =>
      rw [runHandler, post_create]
      by_cases hm : req.method = Method.POST
      · rw [if_pos hm]
        by_cases hv : (BlogPostForm.bound req.postData).is_valid
        · rw [if_pos hv]
          exact ⟨[(s.save req.postData).1], rfl⟩
        · rw [if_neg hv]
          exact ⟨[], (List.append_nil s.posts).symm⟩
      · rw [if_neg hm]
        exact ⟨[], (List.append_nil s.posts).symm⟩

/-- C8: from any store satisfying the invariant, every sequence of
handler invocations yields a store whose identifiers are pairwise
distinct and which still satisfies the invariant, and each save assigns
an identifier fresh with respect to the existing posts. -/
theorem store_identifier_invariant_spec :
    (∀ (h : Handler) (s : Store), Store.WF s → Store.WF (runHandler h s).2) ∧
    (∀ (hs : List Handler) (s : Store), Store.WF s →
      Store.WF (runAll hs s) ∧ ((runAll hs s).posts.map BlogPost.pk).Nodup) ∧
    (∀ (s : Store) (d : RawData), Store.WF s →
      (s.save d).1.pk ∉ s.posts.map BlogPost.pk) := by
  refine ⟨runHandler_WF, ?_, ?_⟩
  · intro hs s hwf
    have h := runAll_WF hs s hwf
    exact ⟨h, h.2⟩
  · intro s d hwf hmem
    rcases List.mem_map.mp hmem with ⟨p, hp, hpk⟩
    exact Nat.lt_irrefl _ (hpk ▸ hwf.1 p hp)

/-- Witness for C8: from the empty store (which satisfies the
invariant), one listing, one detail lookup and one valid create leave
the invariant intact with pairwise distinct identifiers. -/
theorem store_identifier_invariant_spec_witness :
    Store.WF emptyStore ∧
    (Store.WF (runAll
        [Handler.create (Request.mk Method.POST (RawData.mk "a" "b")),
         Handler.list (Request.mk Method.GET (RawData.mk "" "")),
         Handler.detail (Request.mk Method.GET (RawData.mk "" "")) 1]
        emptyStore) ∧
      ((runAll
        [Handler.create (Request.mk Method.POST (RawData.mk "a" "b")),
         Handler.list (Request.mk Method.GET (RawData.mk "" "")),
         Handler.detail (Request.mk Method.GET (RawData.mk "" "")) 1]
        emptyStore).posts.map BlogPost.pk).Nodup) :=
  ⟨by decide,
    store_identifier_invariant_spec.2.1
      [Handler.create (Request.mk Method.POST (RawData.mk "a" "b")),
       Handler.list (Request.mk Method.GET (RawData.mk "" "")),
       Handler.detail (Request.mk Method.GET (RawData.mk "" "")) 1]
      emptyStore (by decide)⟩

/-- C9: a request to the create endpoint whose method is not POST (GET,
HEAD, PUT, DELETE, or any other method) renders an unbound empty form
and leaves the store unchanged. -/
theorem post_create_nonpost_spec (req : Request) (s : Store)
    (hm : req.method ≠ Method.POST) :
    (post_create req s).1 = Response.renderCreate BlogPostForm.unbound ∧
    (post_create req s).2 = s := by
  rw [post_create, if_neg hm]
  exact ⟨rfl, rfl⟩

/-- Witness for C9 at a concrete HEAD request against the empty store. -/
theorem post_create_nonpost_spec_witness :
    (Request.mk Method.HEAD (RawData.mk "a" "b")).method ≠ Method.POST ∧
    ((post_create (Request.mk Method.HEAD (RawData.mk "a" "b")) emptyStore).1 =
        Response.renderCreate BlogPostForm.unbound ∧
      (post_create (Request.mk Method.HEAD (RawData.mk "a" "b")) emptyStore).2 =
        emptyStore) :=
  ⟨by decide, post_create_nonpost_spec _ emptyStore (by decide)⟩

/-- C10: each handler is deterministic in the request data and the store
contents: two invocations on equal handler inputs and equal stores
produce equal responses and equal resulting stores. -/
theorem handlers_deterministic (h1 h2 : Handler) (s1 s2 : Store)
    (hh : h1 = h2) (hs : s1 = s2) :
    runHandler h1 s1 = runHandler h2 s2 := by
  rw [hh, hs]

/-- Witness for C10 at a concrete handler invocation. -/
theorem handlers_deterministic_witness :
    Handler.list (Request.mk Method.GET (RawData.mk "" ""))
        = Handler.list (Request.mk Method.GET (RawData.mk "" "")) ∧
    emptyStore = emptyStore ∧
    runHandler (Handler.list (Request.mk Method.GET (RawData.mk "" ""))) emptyStore =
      runHandler (Handler.list (Request.mk Method.GET (RawData.mk "" ""))) emptyStore :=
  ⟨rfl, rfl,
    handlers_deterministic _ _ emptyStore emptyStore rfl rfl⟩

end Djas
